import Mathlib

/-!
Verification development for `pydantic/plugin/schema_validator.py`, the
pluggable schema-validator layer: a dispatcher that wraps the two engine
entry points (`validate_json`, `validate_python`) with `enter`,
`on_success` and `on_error` plugin callbacks, guarded against reentrancy
by a process-wide in-flight set of callback keys.

The embedding is a shallow state-passing translation of the source file:
exceptions become an explicit `Option Exc` / `Except Exc` result, the
class-level mutable set `_Plug._in_call` and an observation trace of
actual callback invocations become an explicit state record `St`, and
the opaque user callbacks become first-order `Body` programs interpreted
by `execBody` (a body may itself trigger a nested wrapped validation
call, interpreted with explicit fuel).
-/

namespace PydanticPlugin

/-- The two wrapped engine entry points, keys of `_Plug.EVENTS`. -/
inductive EntryPoint where
  | validateJson
  | validatePython
deriving DecidableEq, Repr

/-- Exceptions that can cross this layer.  `validationError` models
`pydantic_core.ValidationError` with an opaque payload; the remaining
constructors model `NotImplementedError`, `AttributeError`, `TypeError`,
the `RuntimeError` raised for an unknown event, and arbitrary other
exceptions.  `outOfFuel` is an interpreter-only marker returned when the
nested-call fuel is exhausted; it never occurs for adequate fuel. -/
inductive Exc where
  | validationError (payload : Nat)
  | notImplementedError
  | attributeError
  | typeError
  | runtimeError
  | outOfFuel
  | other (n : Nat)
deriving DecidableEq, Repr

/-- Arguments handed to a phase of callbacks: the wrapped call arguments
for `enter`, the engine result for `on_success`, the validation-error
payload for `on_error`. -/
inductive CbArgs where
  | input (i : Nat)
  | result (v : Nat)
  | error (p : Nat)
deriving DecidableEq, Repr

/-- Behaviour of one opaque user callback body: return normally, raise
an exception, or trigger a nested wrapped validation call (the way a
plugin callback can re-enter the validator). -/
inductive Body where
  | ok
  | raise (e : Exc)
  | nested (ep : EntryPoint) (input : Nat)
deriving DecidableEq, Repr

/-- A resolved callback: `qualname` models the Python attribute
`__qualname__` of the bound method, `body` its opaque behaviour. -/
structure Callback where
  qualname : String
  body : Body
deriving DecidableEq, Repr

/-- Mutable state threaded through a wrapped call: `inCall` is the
class-level set `_Plug._in_call` of keys currently in flight (a
duplicate-free list), `trace` records every callback body actually
executed together with the arguments it received. -/
structure St where
  inCall : List String
  trace : List (String × CbArgs)
deriving DecidableEq, Repr

/-- Type of the nested-call interpreter a callback body may invoke:
entry point, input, state in; state and engine-style outcome out. -/
abbrev DoNested := EntryPoint → Nat → St → St × Except Exc Nat

/-- Source line `_callback_key = func.__qualname__` in `_Plug.run_once`:
the reentrancy tracking key of a callback. -/
def callback_key (func : Callback) : String :=
  func.qualname

/-- Execution of one callback body.  The invocation is recorded on the
trace (this is the observable event `callback_once(*args, **kwargs)`),
then the body runs: it may return, raise, or perform a nested wrapped
call through `dn`. -/
def execBody (dn : DoNested) (cb : Callback) (args : CbArgs) (s : St) : St × Option Exc :=
  let s0 : St := { s with trace := s.trace ++ [(cb.qualname, args)] }
  match cb.body with
  | Body.ok => (s0, none)
  | Body.raise e => (s0, some e)
  | Body.nested ep input =>
    match dn ep input s0 with
    | (s1, Except.ok _) => (s1, none)
    | (s1, Except.error e) => (s1, some e)

/-- Denotation of `with self.run_once(callback) as callback_once: if
callback_once is None: continue; callback_once(*args)`.  If the key is
already in flight the generator yields `None` and the caller skips the
invocation.  Otherwise the key is added and `invoke` runs; on normal
return the generator resumes past the yield and removes the key, but on
an exception `contextlib.contextmanager` throws the exception at the
yield statement and, the generator having no try/finally, the `remove`
line is never executed: the key stays in the set. -/
def run_once_invoke (invoke : St → St × Option Exc) (key : String) (s : St) : St × Option Exc :=
  if key ∈ s.inCall then
    (s, none)
  else
    match invoke { s with inCall := key :: s.inCall } with
    | (s2, none) => ({ s2 with inCall := s2.inCall.erase key }, none)
    | (s2, some e) => (s2, some e)

/-- Loop body of `_Plug.run_callbacks`: each callback runs under
`run_once` inside `contextlib.suppress(NotImplementedError)`; a
`NotImplementedError` is swallowed and the loop continues, any other
exception propagates and aborts the remaining callbacks. -/
def run_callbacks (dn : DoNested) (callbacks : List Callback) (args : CbArgs) (s : St) :
    St × Option Exc :=
  match callbacks with
  | [] => (s, none)
  | cb :: rest =>
    match run_once_invoke (execBody dn cb args) (callback_key cb) s with
    | (s1, none) => run_callbacks dn rest args s1
    | (s1, some Exc.notImplementedError) => run_callbacks dn rest args s1
    | (s1, some e) => (s1, some e)

/-- A wrapped validator at run time: the opaque engine entry points and
the three callback lists resolved for each entry point at wrap time. -/
structure Validator where
  engine : EntryPoint → Nat → Except Exc Nat
  enterCbs : EntryPoint → List Callback
  successCbs : EntryPoint → List Callback
  errorCbs : EntryPoint → List Callback

/-- The `wrapper` closure produced by `_Plug.__call__`: run the `enter`
callbacks, delegate to the engine, then on a `ValidationError` run the
`on_error` callbacks with that error and re-raise it, on normal return
run the `on_success` callbacks and return the result; any other engine
exception propagates immediately.  `fuel` bounds the depth of nested
wrapped calls made from inside callback bodies. -/
def wrappedCall (V : Validator) : Nat → EntryPoint → Nat → St → St × Except Exc Nat
  | 0, _, _, s => (s, Except.error Exc.outOfFuel)
  | fuel + 1, ep, input, s =>
    match run_callbacks (wrappedCall V fuel) (V.enterCbs ep) (CbArgs.input input) s with
    | (s1, some e) => (s1, Except.error e)
    | (s1, none) =>
      match V.engine ep input with
      | Except.ok v =>
        match run_callbacks (wrappedCall V fuel) (V.successCbs ep) (CbArgs.result v) s1 with
        | (s2, some e) => (s2, Except.error e)
        | (s2, none) => (s2, Except.ok v)
      | Except.error (Exc.validationError p) =>
        match run_callbacks (wrappedCall V fuel) (V.errorCbs ep) (CbArgs.error p) s1 with
        | (s2, some e) => (s2, Except.error e)
        | (s2, none) => (s2, Except.error (Exc.validationError p))
      | Except.error ex => (s1, Except.error ex)

/-- Opaque schema, configuration and plugin-settings payloads. -/
abbrev Schema := Nat

/-- Opaque `CoreConfig` payload. -/
abbrev Config := Nat

/-- Opaque `plugin_settings` payload. -/
abbrev Settings := Nat

/-- A step object constructed from a plugin event factory; each of the
three callback slots may be absent (reading an absent slot raises
`AttributeError`, which `gather_calls` suppresses). -/
structure StepObj where
  enter : Option Callback
  on_success : Option Callback
  on_error : Option Callback
deriving DecidableEq, Repr

/-- Outcome of calling `step_type(schema, config, plugin_settings)`:
a step object, an `AttributeError` or `TypeError` (both suppressed by
`gather_calls`), or some other exception that propagates. -/
inductive StepResult where
  | ok (st : StepObj)
  | attributeError
  | typeError
  | raised (e : Exc)
deriving Repr

/-- A plugin event factory, invoked with the schema, config and plugin
settings exactly as in `step_type(self.schema, self.config,
self.plugin_settings)`. -/
abbrev StepFactory := Schema → Option Config → Option Settings → StepResult

/-- A plugin object: each of the two event attributes probed by
`getattr(plugin, step)` may be absent. -/
structure Plugin where
  on_validate_json : Option StepFactory
  on_validate_python : Option StepFactory

/-- The static table `_Plug.EVENTS`; a name outside the table models the
`KeyError` path (turned into `RuntimeError` by `gather_calls`). -/
def EVENTS (name : String) : Option String :=
  if name = "validate_json" then some "on_validate_json"
  else if name = "validate_python" then some "on_validate_python"
  else none

/-- Denotation of `getattr(plugin, step)` for the event names the
dispatcher probes; `none` models the `AttributeError` path. -/
def pluginEventAttr (plugin : Plugin) (step : String) : Option StepFactory :=
  if step = "on_validate_json" then plugin.on_validate_json
  else if step = "on_validate_python" then plugin.on_validate_python
  else none

/-- The three callback slots a step object may implement. -/
inductive CallbackType where
  | enter
  | on_success
  | on_error
deriving DecidableEq, Repr

/-- Denotation of `getattr(on_step, callback_type)`. -/
def slotOf (st : StepObj) : CallbackType → Option Callback
  | CallbackType.enter => st.enter
  | CallbackType.on_success => st.on_success
  | CallbackType.on_error => st.on_error

/-- The plugin loop of `_Plug.gather_calls`: for each plugin, probe the
event attribute, construct the step by invoking the factory with the
schema, config and settings, and collect the requested slot; absence of
the attribute or slot and `AttributeError` / `TypeError` during
construction silently skip that plugin, any other exception
propagates. -/
def gatherLoop (schema : Schema) (config : Option Config) (settings : Option Settings)
    (step : String) (ct : CallbackType) : List Plugin → Except Exc (List Callback)
  | [] => Except.ok []
  | plugin :: rest =>
    match pluginEventAttr plugin step with
    | none => gatherLoop schema config settings step ct rest
    | some fac =>
      match fac schema config settings with
      | StepResult.attributeError => gatherLoop schema config settings step ct rest
      | StepResult.typeError => gatherLoop schema config settings step ct rest
      | StepResult.raised e => Except.error e
      | StepResult.ok stepObj =>
        match slotOf stepObj ct with
        | none => gatherLoop schema config settings step ct rest
        | some cb =>
          Except.map (fun calls => cb :: calls)
            (gatherLoop schema config settings step ct rest)

/-- `_Plug.gather_calls`: resolve the event name of the wrapped callable
through `EVENTS` (an unknown name raises `RuntimeError`), then collect
the callbacks of the requested slot over all plugins. -/
def gather_calls (schema : Schema) (config : Option Config) (settings : Option Settings)
    (plugins : List Plugin) (funcName : String) (ct : CallbackType) :
    Except Exc (List Callback) :=
  match EVENTS funcName with
  | none => Except.error Exc.runtimeError
  | some step => gatherLoop schema config settings step ct plugins

/-- Wrap-time work of `_Plug.__call__`: resolve the three callback lists
of one entry point (`prepare_enter`, `prepare_on_success`,
`prepare_on_error`). -/
def preparePlug (schema : Schema) (config : Option Config) (settings : Option Settings)
    (plugins : List Plugin) (funcName : String) :
    Except Exc (List Callback × List Callback × List Callback) := do
  let enterCalls ← gather_calls schema config settings plugins funcName CallbackType.enter
  let successCalls ← gather_calls schema config settings plugins funcName CallbackType.on_success
  let errorCalls ← gather_calls schema config settings plugins funcName CallbackType.on_error
  return (enterCalls, successCalls, errorCalls)

/-- `PluggableSchemaValidator.__init__`: build the engine, wrap
`validate_json` and `validate_python` through the plug. -/
def pluggableInit (engine : EntryPoint → Nat → Except Exc Nat) (schema : Schema)
    (config : Option Config) (settings : Option Settings) (plugins : List Plugin) :
    Except Exc Validator := do
  let (e1, s1, r1) ← preparePlug schema config settings plugins "validate_json"
  let (e2, s2, r2) ← preparePlug schema config settings plugins "validate_python"
  return {
    engine := engine
    enterCbs := fun ep =>
      match ep with
      | EntryPoint.validateJson => e1
      | EntryPoint.validatePython => e2
    successCbs := fun ep =>
      match ep with
      | EntryPoint.validateJson => s1
      | EntryPoint.validatePython => s2
    errorCbs := fun ep =>
      match ep with
      | EntryPoint.validateJson => r1
      | EntryPoint.validatePython => r2 }

/-- Which class `create_schema_validator` instantiates. -/
inductive CreatedKind where
  | plain
  | pluggable
deriving DecidableEq, Repr

/-- `create_schema_validator`: a plain `SchemaValidator` when no plugin
is installed, a `PluggableSchemaValidator` otherwise (the Python
truthiness test `if plugins:` on the plugin set). -/
def create_schema_validator (plugins : List Plugin) : CreatedKind :=
  if plugins.isEmpty then CreatedKind.plain else CreatedKind.pluggable

/-! Concrete fixtures used by counterexamples and witnesses. -/

/-- The empty starting state: no key in flight, empty trace. -/
def st0 : St := { inCall := [], trace := [] }

/-- A nested-call interpreter never actually consulted by the fixtures
that use it (their callback bodies do not perform nested calls). -/
def dnNone : DoNested := fun _ _ s => (s, Except.error Exc.outOfFuel)

/-- A callback that returns normally. -/
def cbOk : Callback := { qualname := "OkStep.enter", body := Body.ok }

/-- A callback that raises a generic (non `NotImplementedError`)
exception. -/
def cbRaise : Callback := { qualname := "RaiseStep.enter", body := Body.raise (Exc.other 0) }

/-- A callback that raises `NotImplementedError`. -/
def cbNie : Callback := { qualname := "NieStep.enter", body := Body.raise Exc.notImplementedError }

/-- A second, well-behaved callback listed after `cbNie`. -/
def cbAfter : Callback := { qualname := "AfterStep.enter", body := Body.ok }

/-- Validator whose enter phase is `[cbNie, cbAfter]` over an engine
that echoes its input. -/
def vNie : Validator :=
  { engine := fun _ i => Except.ok i
    enterCbs := fun _ => [cbNie, cbAfter]
    successCbs := fun _ => []
    errorCbs := fun _ => [] }

/-! Claim theorems. -/

/-- C1.  The claim says `run_once` removes the key on every exit path,
including the path where the invoked callback raises.  The code has no
try/finally around the yield, so the raising path leaks the key.  This
theorem evaluates both paths at a concrete input: a normally returning
callback has its key removed, but after `cbRaise` raises, its key
`"RaiseStep.enter"` is still in the in-flight set (second and third
conjuncts), refuting the removal-on-raise part of the claim. -/
theorem C1_run_once_key_leak :
    (run_once_invoke (execBody dnNone cbOk (CbArgs.input 0)) (callback_key cbOk) st0).1.inCall
      = [] ∧
    run_once_invoke (execBody dnNone cbRaise (CbArgs.input 0)) (callback_key cbRaise) st0
      = ({ inCall := ["RaiseStep.enter"], trace := [("RaiseStep.enter", CbArgs.input 0)] },
         some (Exc.other 0)) ∧
    "RaiseStep.enter" ∈
      (run_once_invoke (execBody dnNone cbRaise (CbArgs.input 0)) (callback_key cbRaise) st0).1.inCall := by
  refine ⟨rfl, rfl, by decide⟩

/-- C2.  First conjunct: on the first wrapped call the
`NotImplementedError` raised by `cbNie` is swallowed, the call proceeds
(`Except.ok 5`), and the remaining callback of the phase still runs
(`cbAfter` appears on the trace) — but the key `"NieStep.enter"` stays
in the in-flight set.  Second conjunct: on the next wrapped call the
leaked key makes the guard skip `cbNie` (its invocation is absent from
the trace), so the skip is permanent, refuting the claim that the
callback is invoked again normally on every subsequent wrapped call. -/
theorem C2_nie_skip_is_permanent :
    wrappedCall vNie 1 EntryPoint.validatePython 5 st0
      = ({ inCall := ["NieStep.enter"],
           trace := [("NieStep.enter", CbArgs.input 5), ("AfterStep.enter", CbArgs.input 5)] },
         Except.ok 5) ∧
    wrappedCall vNie 1 EntryPoint.validatePython 5 { inCall := ["NieStep.enter"], trace := [] }
      = ({ inCall := ["NieStep.enter"], trace := [("AfterStep.enter", CbArgs.input 5)] },
         Except.ok 5) := by
  refine ⟨rfl, rfl⟩

/-- C10.  When the guard yields the skip sentinel because the key of
the head callback is already in flight, `run_callbacks` continues with
the remaining callbacks of the phase from an unchanged state: a
reentrancy skip never aborts the phase. -/
theorem C10_reentrancy_skip_continues (dn : DoNested) (cb : Callback) (rest : List Callback)
    (args : CbArgs) (s : St) (hIn : callback_key cb ∈ s.inCall) :
    run_callbacks dn (cb :: rest) args s = run_callbacks dn rest args s := by
  simp [run_callbacks, run_once_invoke, hIn]

/-- Witness for C10 at a concrete input: with the key of `cbOk` in
flight, the phase `[cbOk, cbAfter]` behaves as the phase `[cbAfter]`. -/
theorem C10_witness :
    run_callbacks dnNone [cbOk, cbAfter] (CbArgs.input 3)
        { inCall := ["OkStep.enter"], trace := [] }
      = run_callbacks dnNone [cbAfter] (CbArgs.input 3)
          { inCall := ["OkStep.enter"], trace := [] } :=
  C10_reentrancy_skip_continues dnNone cbOk [cbAfter] (CbArgs.input 3)
    { inCall := ["OkStep.enter"], trace := [] } (by decide)

/-- C8.  A callback body raising any exception other than
`NotImplementedError` is not swallowed: the run of the phase stops at
that callback (the remaining callbacks are irrelevant to the result)
and the exception is the outcome of the phase, so it propagates out of
the wrapped entry point. -/
theorem C8_fail_fast (dn : DoNested) (cb : Callback) (rest : List Callback) (args : CbArgs)
    (s : St) (e : Exc) (hBody : cb.body = Body.raise e) (hNe : e ≠ Exc.notImplementedError)
    (hNotIn : callback_key cb ∉ s.inCall) :
    run_callbacks dn (cb :: rest) args s = run_callbacks dn [cb] args s ∧
    (run_callbacks dn [cb] args s).2 = some e := by
  have h1 : run_once_invoke (execBody dn cb args) (callback_key cb) s
      = ({ inCall := callback_key cb :: s.inCall,
           trace := s.trace ++ [(cb.qualname, args)] }, some e) := by
    simp [run_once_invoke, execBody, hNotIn, hBody]
  constructor
  · simp only [run_callbacks, h1]
  · simp only [run_callbacks, h1]

/-- Witness for C8 at a concrete input: `cbRaise` raises `Exc.other 0`,
the following callback `cbAfter` is not run, and the exception is the
outcome of the phase. -/
theorem C8_witness :
    run_callbacks dnNone [cbRaise, cbAfter] (CbArgs.input 0) st0
      = run_callbacks dnNone [cbRaise] (CbArgs.input 0) st0 ∧
    (run_callbacks dnNone [cbRaise] (CbArgs.input 0) st0).2 = some (Exc.other 0) :=
  C8_fail_fast dnNone cbRaise [cbAfter] (CbArgs.input 0) st0 (Exc.other 0) rfl
    (by decide) (by decide)

/-- C5.  First conjunct: when the enter phase completes silently and
the engine raises a `ValidationError`, the wrapper runs the resolved
`on_error` callbacks with exactly that error and then re-raises the
original error unchanged (or propagates a callback failure).  Second
conjunct: when the engine raises any exception that is not a
`ValidationError`, it propagates immediately from the state left by the
enter phase, so no `on_error` callback is invoked. -/
theorem C5_error_dispatch :
    (∀ (V : Validator) (fuel : Nat) (ep : EntryPoint) (input : Nat) (s s1 : St) (p : Nat),
      run_callbacks (wrappedCall V fuel) (V.enterCbs ep) (CbArgs.input input) s = (s1, none) →
      V.engine ep input = Except.error (Exc.validationError p) →
      wrappedCall V (fuel + 1) ep input s
        = (match run_callbacks (wrappedCall V fuel) (V.errorCbs ep) (CbArgs.error p) s1 with
           | (s2, some e) => (s2, Except.error e)
           | (s2, none) => (s2, Except.error (Exc.validationError p)))) ∧
    (∀ (V : Validator) (fuel : Nat) (ep : EntryPoint) (input : Nat) (s s1 : St) (ex : Exc),
      run_callbacks (wrappedCall V fuel) (V.enterCbs ep) (CbArgs.input input) s = (s1, none) →
      V.engine ep input = Except.error ex →
      (∀ p, ex ≠ Exc.validationError p) →
      wrappedCall V (fuel + 1) ep input s = (s1, Except.error ex)) := by
  constructor
  · intro V fuel ep input s s1 p hEnter hEng
    simp only [wrappedCall, hEnter, hEng]
  · intro V fuel ep input s s1 ex hEnter hEng hNotVal
    simp only [wrappedCall, hEnter, hEng]

/-- An `on_error` callback used by the C5 witness. -/
def cbErr : Callback := { qualname := "ErrStep.on_error", body := Body.ok }

/-- Validator whose engine always raises `ValidationError` payload 9. -/
def vErr : Validator :=
  { engine := fun _ _ => Except.error (Exc.validationError 9)
    enterCbs := fun _ => []
    successCbs := fun _ => []
    errorCbs := fun _ => [cbErr] }

/-- Validator whose engine always raises a non validation error. -/
def vBoom : Validator :=
  { engine := fun _ _ => Except.error (Exc.other 3)
    enterCbs := fun _ => []
    successCbs := fun _ => []
    errorCbs := fun _ => [cbErr] }

/-- Witness for C5 at concrete inputs: a validation error is dispatched
to the error phase and re-raised, while `Exc.other 3` propagates with
the `on_error` callback list never run (the state stays `st0`). -/
theorem C5_witness :
    wrappedCall vErr 1 EntryPoint.validateJson 0 st0
      = (match run_callbacks (wrappedCall vErr 0) (vErr.errorCbs EntryPoint.validateJson)
            (CbArgs.error 9) st0 with
         | (s2, some e) => (s2, Except.error e)
         | (s2, none) => (s2, Except.error (Exc.validationError 9))) ∧
    wrappedCall vBoom 1 EntryPoint.validateJson 0 st0 = (st0, Except.error (Exc.other 3)) :=
  ⟨C5_error_dispatch.1 vErr 0 EntryPoint.validateJson 0 st0 st0 9 rfl rfl,
   C5_error_dispatch.2 vBoom 0 EntryPoint.validateJson 0 st0 st0 (Exc.other 3) rfl rfl
     (fun _ h => Exc.noConfusion h)⟩

/-- The validator `pluggableInit` builds when the plugin list is empty:
every callback list of every entry point is empty. -/
def emptyValidator (engine : EntryPoint → Nat → Except Exc Nat) : Validator :=
  { engine := engine
    enterCbs := fun ep =>
      match ep with
      | EntryPoint.validateJson => []
      | EntryPoint.validatePython => []
    successCbs := fun ep =>
      match ep with
      | EntryPoint.validateJson => []
      | EntryPoint.validatePython => []
    errorCbs := fun ep =>
      match ep with
      | EntryPoint.validateJson => []
      | EntryPoint.validatePython => [] }

/-- C6.  With zero installed plugins the factory returns the plain
engine, and the pluggable wrapper built from the empty plugin list is
observationally the engine: on every entry point and every input it
returns the same value or raises the same exception, leaving the state
untouched. -/
theorem C6_zero_plugins (engine : EntryPoint → Nat → Except Exc Nat) (schema : Schema)
    (config : Option Config) (settings : Option Settings) :
    create_schema_validator [] = CreatedKind.plain ∧
    ∀ V, pluggableInit engine schema config settings [] = Except.ok V →
      ∀ (fuel : Nat) (ep : EntryPoint) (input : Nat) (s : St),
        wrappedCall V (fuel + 1) ep input s = (s, engine ep input) := by
  constructor
  · rfl
  · intro V hV fuel ep input s
    have hcomp : pluggableInit engine schema config settings []
        = Except.ok (emptyValidator engine) := rfl
    rw [hcomp] at hV
    cases hV
    cases ep with
    | validateJson =>
      simp only [wrappedCall, emptyValidator, run_callbacks]
      cases hE : engine EntryPoint.validateJson input with
      | ok v => rfl
      | error ex =>
        cases ex with
        | validationError p => rfl
        | notImplementedError => rfl
        | attributeError => rfl
        | typeError => rfl
        | runtimeError => rfl
        | outOfFuel => rfl
        | other n => rfl
    | validatePython =>
      simp only [wrappedCall, emptyValidator, run_callbacks]
      cases hE : engine EntryPoint.validatePython input with
      | ok v => rfl
      | error ex =>
        cases ex with
        | validationError p => rfl
        | notImplementedError => rfl
        | attributeError => rfl
        | typeError => rfl
        | runtimeError => rfl
        | outOfFuel => rfl
        | other n => rfl

/-- An engine that echoes its input, used by the C6 witness. -/
def engineEcho : EntryPoint → Nat → Except Exc Nat := fun _ i => Except.ok i

/-- Witness for C6 at a concrete input. -/
theorem C6_witness :
    create_schema_validator [] = CreatedKind.plain ∧
    wrappedCall (emptyValidator engineEcho) 1 EntryPoint.validateJson 7 st0
      = (st0, Except.ok 7) :=
  ⟨(C6_zero_plugins engineEcho 0 none none).1,
   (C6_zero_plugins engineEcho 0 none none).2 (emptyValidator engineEcho) rfl 0
     EntryPoint.validateJson 7 st0⟩

/-- C7.  For a plugin that implements the entry point event: the step
is constructed by invoking the factory with the schema, config and
settings, the callback of the requested slot is taken from that step,
and it heads the list that the resolution of the remaining plugins
produces. -/
theorem C7_step_construction (schema : Schema) (config : Option Config)
    (settings : Option Settings) (plugin : Plugin) (rest : List Plugin)
    (funcName step : String) (fac : StepFactory) (stepObj : StepObj)
    (ct : CallbackType) (cb : Callback)
    (hEvent : EVENTS funcName = some step)
    (hAttr : pluginEventAttr plugin step = some fac)
    (hCons : fac schema config settings = StepResult.ok stepObj)
    (hSlot : slotOf stepObj ct = some cb) :
    gather_calls schema config settings (plugin :: rest) funcName ct
      = Except.map (fun calls => cb :: calls)
          (gather_calls schema config settings rest funcName ct) := by
  simp only [gather_calls, hEvent, gatherLoop, hAttr, hCons, hSlot]

/-- A factory producing a step whose only slot is `enter := cbOk`. -/
def soloFactory : StepFactory := fun _ _ _ =>
  StepResult.ok { enter := some cbOk, on_success := none, on_error := none }

/-- A plugin implementing only the `validate_json` event. -/
def soloPlugin : Plugin :=
  { on_validate_json := some soloFactory, on_validate_python := none }

/-- Witness for C7 at a concrete input. -/
theorem C7_witness :
    gather_calls 0 none none [soloPlugin] "validate_json" CallbackType.enter
      = Except.map (fun calls => cbOk :: calls)
          (gather_calls 0 none none [] "validate_json" CallbackType.enter) :=
  C7_step_construction 0 none none soloPlugin [] "validate_json" "on_validate_json" soloFactory
    { enter := some cbOk, on_success := none, on_error := none } CallbackType.enter cbOk
    rfl rfl rfl rfl

/-- C9.  A plugin whose event attribute is missing, or whose step
construction raises `AttributeError` or `TypeError`, is skipped
silently: the callbacks gathered from the surrounding plugins are
exactly those gathered with the faulty plugin absent, for every slot
and every position in the plugin iteration order. -/
theorem C9_construction_isolation (schema : Schema) (config : Option Config)
    (settings : Option Settings) (step : String) (ct : CallbackType)
    (pre post : List Plugin) (bad : Plugin)
    (hBad : pluginEventAttr bad step = none ∨
      ∃ fac, pluginEventAttr bad step = some fac ∧
        (fac schema config settings = StepResult.attributeError ∨
         fac schema config settings = StepResult.typeError)) :
    gatherLoop schema config settings step ct (pre ++ bad :: post)
      = gatherLoop schema config settings step ct (pre ++ post) := by
  induction pre with
  | nil =>
    simp only [List.nil_append]
    rcases hBad with h | ⟨fac, hA, h | h⟩
    · simp only [gatherLoop, h]
    · simp only [gatherLoop, hA, h]
    · simp only [gatherLoop, hA, h]
  | cons p pre ih =>
    cases hp : pluginEventAttr p step with
    | none =>
      simp only [List.cons_append, gatherLoop, hp]
      exact ih
    | some fac =>
      cases hf : fac schema config settings with
      | attributeError =>
        simp only [List.cons_append, gatherLoop, hp, hf]
        exact ih
      | typeError =>
        simp only [List.cons_append, gatherLoop, hp, hf]
        exact ih
      | raised e =>
        simp only [List.cons_append, gatherLoop, hp, hf]
      | ok stepObj =>
        cases hs : slotOf stepObj ct with
        | none =>
          simp only [List.cons_append, gatherLoop, hp, hf, hs]
          exact ih
        | some cb =>
          simp only [List.cons_append, gatherLoop, hp, hf, hs]
          exact congrArg (Except.map fun calls => cb :: calls) ih

/-- A plugin whose `validate_json` step construction raises
`TypeError`. -/
def badPlugin : Plugin :=
  { on_validate_json := some (fun _ _ _ => StepResult.typeError)
    on_validate_python := none }

/-- Witness for C9 at a concrete input. -/
theorem C9_witness :
    gatherLoop 0 none none "on_validate_json" CallbackType.enter
        [soloPlugin, badPlugin, soloPlugin]
      = gatherLoop 0 none none "on_validate_json" CallbackType.enter
          [soloPlugin, soloPlugin] :=
  C9_construction_isolation 0 none none "on_validate_json" CallbackType.enter
    [soloPlugin] [soloPlugin] badPlugin
    (Or.inr ⟨fun _ _ _ => StepResult.typeError, rfl, Or.inr rfl⟩)

/-- A step factory shared by both events of `sharedPlugin`: the same
step implementation serves `validate_json` and `validate_python`. -/
def sharedStepFactory : StepFactory := fun _ _ _ =>
  StepResult.ok { enter := some { qualname := "SharedStep.enter", body := Body.ok },
                  on_success := none, on_error := none }

/-- A plugin installing the same step implementation for both entry
points. -/
def sharedPlugin : Plugin :=
  { on_validate_json := some sharedStepFactory
    on_validate_python := some sharedStepFactory }

/-- C4 counterexample.  The claim asserts the key is distinct for every
distinct (observer, entry point, callback-slot) triple.  With
`sharedPlugin`, the two distinct triples that differ only in the entry
point resolve to callbacks whose reentrancy keys are the same string
`"SharedStep.enter"`, so distinctness per triple fails. -/
theorem C4_counterexample :
    EntryPoint.validateJson ≠ EntryPoint.validatePython ∧
    Except.map (List.map callback_key)
        (gather_calls 0 none none [sharedPlugin] "validate_json" CallbackType.enter)
      = Except.ok ["SharedStep.enter"] ∧
    Except.map (List.map callback_key)
        (gather_calls 0 none none [sharedPlugin] "validate_python" CallbackType.enter)
      = Except.ok ["SharedStep.enter"] := by
  refine ⟨by decide, rfl, rfl⟩

/-- C4 amended.  The key is the qualified name of the callback
(`func.__qualname__`): it is a pure function of the callback, hence
stable across invocations; two callbacks collide exactly when their
qualified names are equal — in particular the literal same callback
implementation collides regardless of which entry point triggered it,
while distinctness across triples holds only up to qualified names; and
an in-flight key makes the guard yield the skip sentinel whatever
invocation is attempted. -/
theorem C4_key_semantics :
    (∀ cb : Callback, callback_key cb = cb.qualname) ∧
    (∀ cb1 cb2 : Callback, callback_key cb1 = callback_key cb2 ↔ cb1.qualname = cb2.qualname) ∧
    (∀ (invoke : St → St × Option Exc) (cb : Callback) (s : St),
      callback_key cb ∈ s.inCall →
      run_once_invoke invoke (callback_key cb) s = (s, none)) := by
  refine ⟨fun _ => rfl, fun _ _ => Iff.rfl, fun invoke cb s h => ?_⟩
  simp [run_once_invoke, h]

/-- Witness for C4 at concrete inputs. -/
theorem C4_witness :
    callback_key cbOk = "OkStep.enter" ∧
    (callback_key cbOk = callback_key cbAfter ↔ "OkStep.enter" = "AfterStep.enter") ∧
    run_once_invoke (execBody dnNone cbOk (CbArgs.input 0)) (callback_key cbOk)
        { inCall := ["OkStep.enter"], trace := [] }
      = ({ inCall := ["OkStep.enter"], trace := [] }, none) :=
  ⟨C4_key_semantics.1 cbOk, C4_key_semantics.2.1 cbOk cbAfter,
   C4_key_semantics.2.2 (execBody dnNone cbOk (CbArgs.input 0)) cbOk
     { inCall := ["OkStep.enter"], trace := [] } (by decide)⟩

/-! Reentrancy invariant: while key `k` is in flight, no part of the
dispatcher executes a callback whose key is `k`, and the multiplicity
of `k` in the in-flight set is preserved. -/

/-- A transition from `s` to the result state is guarded for key `k`:
the multiplicity of `k` in the in-flight set is unchanged and the trace
grows only by invocations of callbacks with other keys. -/
def GuardOk (k : String) (s s' : St) : Prop :=
  s'.inCall.count k = s.inCall.count k ∧
  ∃ t, s'.trace = s.trace ++ t ∧ ∀ ev ∈ t, ev.1 ≠ k

/-- The identity transition is guarded. -/
theorem guardOk_refl (k : String) (s : St) : GuardOk k s s :=
  ⟨rfl, [], by simp, fun ev h => absurd h (List.not_mem_nil ev)⟩

/-- Guarded transitions compose. -/
theorem guardOk_trans {k : String} {s1 s2 s3 : St} (h12 : GuardOk k s1 s2)
    (h23 : GuardOk k s2 s3) : GuardOk k s1 s3 := by
  obtain ⟨hc12, t12, ht12, hcl12⟩ := h12
  obtain ⟨hc23, t23, ht23, hcl23⟩ := h23
  refine ⟨hc23.trans hc12, t12 ++ t23, ?_, ?_⟩
  · rw [ht23, ht12, List.append_assoc]
  · intro ev hev
    rcases List.mem_append.1 hev with h | h
    · exact hcl12 ev h
    · exact hcl23 ev h

/-- A guarded transition preserves membership of the key. -/
theorem guardOk_mem {k : String} {s s' : St} (h : GuardOk k s s') (hm : k ∈ s.inCall) :
    k ∈ s'.inCall := by
  have hp : 0 < s.inCall.count k := List.count_pos_iff.2 hm
  have hp' : 0 < s'.inCall.count k := by rw [h.1]; exact hp
  exact List.count_pos_iff.1 hp'

/-- A nested-call interpreter is guarded for key `k` when, from every
state with `k` in flight, it performs a guarded transition. -/
def KeyGuardedDN (k : String) (dn : DoNested) : Prop :=
  ∀ ep input s, k ∈ s.inCall → GuardOk k s (dn ep input s).1

/-- Executing one callback body from a state with `k` in flight logs
the invocation of that callback and otherwise performs a guarded
transition: all further trace events have keys other than `k` and the
multiplicity of `k` in the in-flight set is unchanged. -/
theorem execBody_guard {k : String} {dn : DoNested} (hdn : KeyGuardedDN k dn)
    (cb : Callback) (args : CbArgs) (s : St) (hm : k ∈ s.inCall) :
    (execBody dn cb args s).1.inCall.count k = s.inCall.count k ∧
    ∃ t, (execBody dn cb args s).1.trace = s.trace ++ ((cb.qualname, args) :: t) ∧
      ∀ ev ∈ t, ev.1 ≠ k := by
  cases hb : cb.body with
  | ok =>
    refine ⟨?_, [], ?_, fun ev h => absurd h (List.not_mem_nil ev)⟩
    · simp [execBody, hb]
    · simp [execBody, hb]
  | raise e =>
    refine ⟨?_, [], ?_, fun ev h => absurd h (List.not_mem_nil ev)⟩
    · simp [execBody, hb]
    · simp [execBody, hb]
  | nested ep input =>
    simp only [execBody, hb]
    have hm0 : k ∈ ({ s with trace := s.trace ++ [(cb.qualname, args)] } : St).inCall := hm
    obtain ⟨hc, t, ht, hcl⟩ :=
      hdn ep input { s with trace := s.trace ++ [(cb.qualname, args)] } hm0
    cases hr : dn ep input { s with trace := s.trace ++ [(cb.qualname, args)] } with
    | mk s1 r =>
      rw [hr] at hc ht
      cases r with
      | ok v =>
        refine ⟨hc, t, ?_, hcl⟩
        rw [ht]
        simp
      | error e =>
        refine ⟨hc, t, ?_, hcl⟩
        rw [ht]
        simp

/-- One iteration of the callback loop — the guard around one callback
— is a guarded transition for every in-flight key `k`. -/
theorem run_once_guard {k : String} {dn : DoNested} (hdn : KeyGuardedDN k dn)
    (cb : Callback) (args : CbArgs) (s : St) (hm : k ∈ s.inCall) :
    GuardOk k s (run_once_invoke (execBody dn cb args) (callback_key cb) s).1 := by
  by_cases hk : callback_key cb ∈ s.inCall
  · simp only [run_once_invoke, if_pos hk]
    exact guardOk_refl k s
  · have hne : callback_key cb ≠ k := by
      intro h
      rw [h] at hk
      exact hk hm
    have hm1 : k ∈ ({ s with inCall := callback_key cb :: s.inCall } : St).inCall :=
      List.mem_cons_of_mem _ hm
    obtain ⟨hc, t, ht, hcl⟩ :=
      execBody_guard hdn cb args { s with inCall := callback_key cb :: s.inCall } hm1
    simp only [run_once_invoke, if_neg hk]
    cases hr : execBody dn cb args { s with inCall := callback_key cb :: s.inCall } with
    | mk s2 r =>
      rw [hr] at hc ht
      have hc' : s2.inCall.count k = (callback_key cb :: s.inCall).count k := hc
      have ht' : s2.trace = s.trace ++ ((cb.qualname, args) :: t) := ht
      have hclean : ∀ ev ∈ (cb.qualname, args) :: t, ev.1 ≠ k := by
        intro ev hev
        rcases List.mem_cons.1 hev with h | h
        · rw [h]
          exact hne
        · exact hcl ev h
      cases r with
      | none =>
        refine ⟨?_, (cb.qualname, args) :: t, ht', hclean⟩
        rw [List.count_erase_of_ne (Ne.symm hne), hc',
          List.count_cons_of_ne (Ne.symm hne)]
      | some e =>
        refine ⟨?_, (cb.qualname, args) :: t, ht', hclean⟩
        rw [hc', List.count_cons_of_ne (Ne.symm hne)]

/-- A whole phase of callbacks is a guarded transition for every
in-flight key `k`. -/
theorem run_callbacks_guard {k : String} {dn : DoNested} (hdn : KeyGuardedDN k dn)
    (cbs : List Callback) (args : CbArgs) :
    ∀ s, k ∈ s.inCall → GuardOk k s (run_callbacks dn cbs args s).1 := by
  induction cbs with
  | nil =>
    intro s hm
    exact guardOk_refl k s
  | cons cb rest ih =>
    intro s hm
    have h1 := run_once_guard hdn cb args s hm
    cases hr : run_once_invoke (execBody dn cb args) (callback_key cb) s with
    | mk s1 r =>
      rw [hr] at h1
      have hm1 : k ∈ s1.inCall := guardOk_mem h1 hm
      simp only [run_callbacks, hr]
      cases r with
      | none => exact guardOk_trans h1 (ih s1 hm1)
      | some e =>
        cases e with
        | notImplementedError => exact guardOk_trans h1 (ih s1 hm1)
        | validationError _ => exact h1
        | attributeError => exact h1
        | typeError => exact h1
        | runtimeError => exact h1
        | outOfFuel => exact h1
        | other _ => exact h1

/-- The wrapped call at every fuel is guarded for every in-flight key:
a nested wrapped validation call never executes a callback whose key is
already in flight. -/
theorem wrappedCall_guard (V : Validator) (k : String) :
    ∀ fuel, KeyGuardedDN k (wrappedCall V fuel) := by
  intro fuel
  induction fuel with
  | zero =>
    intro ep input s hm
    exact guardOk_refl k s
  | succ fuel ih =>
    intro ep input s hm
    have hE := run_callbacks_guard ih (V.enterCbs ep) (CbArgs.input input) s hm
    cases hr1 : run_callbacks (wrappedCall V fuel) (V.enterCbs ep) (CbArgs.input input) s with
    | mk s1 r1 =>
      rw [hr1] at hE
      have hm1 : k ∈ s1.inCall := guardOk_mem hE hm
      cases r1 with
      | some e =>
        simp only [wrappedCall, hr1]
        exact hE
      | none =>
        cases hEng : V.engine ep input with
        | ok v =>
          have hS := run_callbacks_guard ih (V.successCbs ep) (CbArgs.result v) s1 hm1
          cases hr2 : run_callbacks (wrappedCall V fuel) (V.successCbs ep) (CbArgs.result v) s1 with
          | mk s2 r2 =>
            rw [hr2] at hS
            simp only [wrappedCall, hr1, hEng, hr2]
            cases r2 with
            | some e => exact guardOk_trans hE hS
            | none => exact guardOk_trans hE hS
        | error ex =>
          cases ex with
          | validationError p =>
            have hS := run_callbacks_guard ih (V.errorCbs ep) (CbArgs.error p) s1 hm1
            cases hr2 : run_callbacks (wrappedCall V fuel) (V.errorCbs ep) (CbArgs.error p) s1 with
            | mk s2 r2 =>
              rw [hr2] at hS
              simp only [wrappedCall, hr1, hEng, hr2]
              cases r2 with
              | some e => exact guardOk_trans hE hS
              | none => exact guardOk_trans hE hS
          | notImplementedError =>
            simp only [wrappedCall, hr1, hEng]
            exact hE
          | attributeError =>
            simp only [wrappedCall, hr1, hEng]
            exact hE
          | typeError =>
            simp only [wrappedCall, hr1, hEng]
            exact hE
          | runtimeError =>
            simp only [wrappedCall, hr1, hEng]
            exact hE
          | outOfFuel =>
            simp only [wrappedCall, hr1, hEng]
            exact hE
          | other _ =>
            simp only [wrappedCall, hr1, hEng]
            exact hE

/-- Invoking a callback whose key is not in flight, under the guard and
a guarded nested-call interpreter, logs exactly one invocation of that
callback first and no later event carries the same key. -/
theorem run_once_fresh {dn : DoNested} (cb : Callback) (args : CbArgs) (s : St)
    (hdn : KeyGuardedDN (callback_key cb) dn)
    (hNotIn : callback_key cb ∉ s.inCall) :
    ∃ t, (run_once_invoke (execBody dn cb args) (callback_key cb) s).1.trace
        = s.trace ++ ((cb.qualname, args) :: t) ∧ ∀ ev ∈ t, ev.1 ≠ callback_key cb := by
  have hm1 : callback_key cb ∈ ({ s with inCall := callback_key cb :: s.inCall } : St).inCall :=
    List.mem_cons_self _ _
  obtain ⟨hc, t, ht, hcl⟩ :=
    execBody_guard hdn cb args { s with inCall := callback_key cb :: s.inCall } hm1
  simp only [run_once_invoke, if_neg hNotIn]
  cases hr : execBody dn cb args { s with inCall := callback_key cb :: s.inCall } with
  | mk s2 r =>
    rw [hr] at ht
    have ht' : s2.trace = s.trace ++ ((cb.qualname, args) :: t) := ht
    cases r with
    | none => exact ⟨t, ht', hcl⟩
    | some e => exact ⟨t, ht', hcl⟩

/-- When the guarded invocation of a callback whose key was not in
flight completes without an exception, the key is again out of the
in-flight set: the scope released it. -/
theorem run_once_release {dn : DoNested} (cb : Callback) (args : CbArgs) (s : St)
    (hdn : KeyGuardedDN (callback_key cb) dn)
    (hNotIn : callback_key cb ∉ s.inCall)
    (hr2 : (run_once_invoke (execBody dn cb args) (callback_key cb) s).2 = none) :
    callback_key cb ∉ (run_once_invoke (execBody dn cb args) (callback_key cb) s).1.inCall := by
  have hm1 : callback_key cb ∈ ({ s with inCall := callback_key cb :: s.inCall } : St).inCall :=
    List.mem_cons_self _ _
  obtain ⟨hc, t, ht, hcl⟩ :=
    execBody_guard hdn cb args { s with inCall := callback_key cb :: s.inCall } hm1
  simp only [run_once_invoke, if_neg hNotIn] at hr2 ⊢
  cases hr : execBody dn cb args { s with inCall := callback_key cb :: s.inCall } with
  | mk s2 r =>
    rw [hr] at hc hr2
    have hc' : s2.inCall.count (callback_key cb)
        = (callback_key cb :: s.inCall).count (callback_key cb) := hc
    cases r with
    | none =>
      have h1 : s2.inCall.count (callback_key cb) = 1 := by
        rw [hc', List.count_cons_self, List.count_eq_zero_of_not_mem hNotIn]
      have h2 : (s2.inCall.erase (callback_key cb)).count (callback_key cb) = 0 := by
        rw [List.count_erase_self, h1]
      exact List.count_eq_zero.1 h2
    | some e => exact Option.noConfusion hr2

/-- C3.  Guarded invocation of a callback whose key is not in flight,
with nested wrapped calls interpreted by `wrappedCall`:
first conjunct — the callback body runs exactly once at the head of the
new trace and no event produced inside it (in particular by any nested
wrapped validation call) carries the same key, i.e. the inner
invocation of the identical callback is skipped while the outer is in
flight; second conjunct — when the outer invocation completes normally
the key has been released; third conjunct — from the released state a
subsequent non-nested invocation executes the callback again as
usual. -/
theorem C3_reentrancy (V : Validator) (fuel : Nat) (cb : Callback) (args : CbArgs) (s : St)
    (hNotIn : callback_key cb ∉ s.inCall) :
    (∃ t, (run_once_invoke (execBody (wrappedCall V fuel) cb args) (callback_key cb) s).1.trace
        = s.trace ++ ((cb.qualname, args) :: t) ∧ ∀ ev ∈ t, ev.1 ≠ callback_key cb) ∧
    ((run_once_invoke (execBody (wrappedCall V fuel) cb args) (callback_key cb) s).2 = none →
      callback_key cb ∉
        (run_once_invoke (execBody (wrappedCall V fuel) cb args) (callback_key cb) s).1.inCall) ∧
    ((run_once_invoke (execBody (wrappedCall V fuel) cb args) (callback_key cb) s).2 = none →
      ∃ t2, (run_once_invoke (execBody (wrappedCall V fuel) cb args) (callback_key cb)
              (run_once_invoke (execBody (wrappedCall V fuel) cb args) (callback_key cb) s).1).1.trace
          = (run_once_invoke (execBody (wrappedCall V fuel) cb args) (callback_key cb) s).1.trace
            ++ ((cb.qualname, args) :: t2)) := by
  have hdn := wrappedCall_guard V (callback_key cb) fuel
  refine ⟨run_once_fresh cb args s hdn hNotIn,
          fun hr => run_once_release cb args s hdn hNotIn hr,
          fun hr => ?_⟩
  obtain ⟨t2, ht2, _⟩ :=
    run_once_fresh cb args
      (run_once_invoke (execBody (wrappedCall V fuel) cb args) (callback_key cb) s).1 hdn
      (run_once_release cb args s hdn hNotIn hr)
  exact ⟨t2, ht2⟩

/-- A callback whose body performs a nested wrapped validation call. -/
def cbNest : Callback :=
  { qualname := "NestStep.enter", body := Body.nested EntryPoint.validatePython 1 }

/-- Validator whose enter phase is `[cbNest]` over an echoing engine:
invoking `cbNest` triggers a wrapped call that would re-enter it. -/
def vNest : Validator :=
  { engine := fun _ i => Except.ok i
    enterCbs := fun _ => [cbNest]
    successCbs := fun _ => []
    errorCbs := fun _ => [] }

/-- Witness for C3 at a concrete input: the guarded invocation of
`cbNest` logs one event, the nested wrapped call inside it skips the
identical callback, the key is released on completion, and a second
invocation runs the callback again. -/
theorem C3_witness :
    (∃ t, (run_once_invoke (execBody (wrappedCall vNest 1) cbNest (CbArgs.input 1))
            (callback_key cbNest) st0).1.trace
        = st0.trace ++ (("NestStep.enter", CbArgs.input 1) :: t) ∧
        ∀ ev ∈ t, ev.1 ≠ callback_key cbNest) ∧
    callback_key cbNest ∉
      (run_once_invoke (execBody (wrappedCall vNest 1) cbNest (CbArgs.input 1))
        (callback_key cbNest) st0).1.inCall ∧
    (∃ t2, (run_once_invoke (execBody (wrappedCall vNest 1) cbNest (CbArgs.input 1))
            (callback_key cbNest)
            (run_once_invoke (execBody (wrappedCall vNest 1) cbNest (CbArgs.input 1))
              (callback_key cbNest) st0).1).1.trace
        = (run_once_invoke (execBody (wrappedCall vNest 1) cbNest (CbArgs.input 1))
            (callback_key cbNest) st0).1.trace
          ++ (("NestStep.enter", CbArgs.input 1) :: t2)) :=
  ⟨(C3_reentrancy vNest 1 cbNest (CbArgs.input 1) st0 (by decide)).1,
   (C3_reentrancy vNest 1 cbNest (CbArgs.input 1) st0 (by decide)).2.1 rfl,
   (C3_reentrancy vNest 1 cbNest (CbArgs.input 1) st0 (by decide)).2.2 rfl⟩

end PydanticPlugin
